import Mathlib

/-!
Verification development for the SSE relay core of
`packages/desktop/src-tauri/src/opencode/sse.rs`.

The stateful body of `stream_events` is embedded as explicit state passing:
bytes are `List Nat`, `serde_json::Value` is the inductive `Json`, the local
mutable variables of `stream_events` (`buf`, `data_buf`, `event_id_buf`,
`last_event_id`, `last_completed_id`, `message_info_cache`, the shared replay
`buffer`) form the structure `StreamState`, and each observable side effect
(`app_handle.emit`, the notification builder) is an `Out` value.  `log::info!`
lines and the debug-only branches guarded by `OPENCHAMBER_SSE_DEBUG` have no
observable effect beyond logging and are omitted.  The stop flag is modelled
as never set (claims are about a running stream).  `serde_json::from_str` is
an external crate; it is a parameter `parse` of the line-level machine, and
`json_parse` below is a concrete executable model of it sufficient for the
ASCII inputs used in this development.
-/

/-- Model of `serde_json::Value`.  Floating point numbers do not occur in any
input considered here, so numbers are carried as `Int`. -/
inductive Json where
  | null
  | bool (b : Bool)
  | num (n : Int)
  | str (s : String)
  | arr (elems : List Json)
  | obj (fields : List (String × Json))

/-- First binding of a key in an object's field list, as `serde_json`'s
`Value::get` (object keys are unique in parsed values). -/
def lookupField : List (String × Json) → String → Option Json
  | [], _ => none
  | (k, v) :: rest, key => if k = key then some v else lookupField rest key

/-- `Value::get(key)`: `Some` on an object containing the key, else `None`. -/
def Json.get : Json → String → Option Json
  | .obj fields, key => lookupField fields key
  | _, _ => none

/-- `Value::as_str`. -/
def Json.asStr : Json → Option String
  | .str s => some s
  | _ => none

/-- `Value::as_array` (cloned). -/
def Json.asArr : Json → Option (List Json)
  | .arr xs => some xs
  | _ => none

/-- Observable side effects of the streaming loop, in emission order:
`opencode:status` parse-failure diagnostics (sse.rs lines 717-724),
`opencode:message-complete` (560-563 and 678-681), the notification builder
invocation (630-636 and 690-696), and `opencode:event` sink delivery (714). -/
inductive Out where
  | statusErr (raw : List Nat)
  | msgComplete (id : String)
  | notify (title body : String)
  | sink (v : Json)

/-- State of one `stream_events` invocation (sse.rs lines 330-335) together
with the shared replay buffer and the connection's `last_event_id`. -/
structure StreamState where
  data_buf : List Nat
  event_id_buf : Option (List Nat)
  last_event_id : Option (List Nat)
  message_info_cache : List (String × String × String)
  last_completed_id : Option String
  buffer : List Json

/-- Fresh state at the start of a streaming session (sse.rs lines 330-335);
the replay buffer and `last_event_id` are passed in from the manager but both
start empty for a fresh manager. -/
def init_state : StreamState :=
  { data_buf := []
    event_id_buf := none
    last_event_id := none
    message_info_cache := []
    last_completed_id := none
    buffer := [] }

/-- `HashMap::get` on the metadata cache, modelled as first match in an
association list (only `get` and `insert` are ever used, so the list order
beyond the first match is unobservable). -/
def cache_get : List (String × String × String) → String → Option (String × String)
  | [], _ => none
  | (k, m, d) :: rest, id => if k = id then some (m, d) else cache_get rest id

/-- `HashMap::insert`: the new binding shadows any previous one. -/
def cache_insert (c : List (String × String × String)) (id : String)
    (v : String × String) : List (String × String × String) :=
  (id, v.1, v.2) :: c

/-- Capacity of the replay buffer: `max_buffer` is fixed to 256 by
`SseManager::start` (sse.rs line 208). -/
def max_buffer : Nat := 256

/-- One push into the replay buffer (sse.rs lines 707-713): if the buffer is
at capacity the oldest entry (index 0) is removed first, then the value is
appended. -/
def buffer_push (cap : Nat) (buf : List Json) (v : Json) : List Json :=
  if cap ≤ buf.length then buf.drop 1 ++ [v] else buf ++ [v]

/-- The `extract_model_mode` closure (sse.rs lines 338-367): read
`info.modelID` / `info.mode` from the node itself, falling back to a nested
`message.info` only when the direct `info` yielded neither field. -/
def extract_model_mode (props : Json) : Option String × Option String :=
  let tryInfo : Json → Option String × Option String := fun node =>
    let info := node.get "info"
    ((info.bind (fun i => i.get "modelID")).bind Json.asStr,
     (info.bind (fun i => i.get "mode")).bind Json.asStr)
  let direct := tryInfo props
  if direct.1.isSome ∨ direct.2.isSome then direct
  else
    match props.get "message" with
    | some messageNode =>
        let nested := tryInfo messageNode
        if nested.1.isSome ∨ nested.2.isSome then nested else (none, none)
    | none => (none, none)

/-- The recurring `props.get(k).or_else(|| props.get("info").and_then(|i| i.get(k))).and_then(as_str)`
pattern used for `id` (419-421), `role` (443-446) and `status` (519-522):
the `info` fallback applies only when the top-level field is absent, and the
string coercion applies after the fallback. -/
def resolve_field (props : Json) (key : String) : Option String :=
  ((props.get key).orElse (fun _ => (props.get "info").bind (fun i => i.get key))).bind Json.asStr

/-- The `parts_vec` resolution of the suppression check (sse.rs lines
447-458): top-level `parts` as an array, else `info.parts` as an array, else
the empty vector. -/
def resolve_parts (props : Json) : List Json :=
  (((props.get "parts").bind Json.asArr).orElse
    (fun _ => ((props.get "info").bind (fun i => i.get "parts")).bind Json.asArr)).getD []

/-- The envelope unwrap (sse.rs lines 406-412): if a `payload` field is
present the event becomes that field's value, otherwise the parsed value
itself. -/
def normalize_event (parsed : Json) : Json :=
  match parsed.get "payload" with
  | some payload => payload
  | none => parsed

/-- The suppression rule (sse.rs lines 440-480): a `message.updated` whose
resolved role is `assistant` and whose resolved parts vector is empty is a
transient placeholder. -/
def is_suppressed (value : Json) : Bool :=
  if (value.get "type").bind Json.asStr = some "message.updated" then
    match value.get "properties" with
    | some props =>
        decide (resolve_field props "role" = some "assistant") && (resolve_parts props).isEmpty
    | none => false
  else false

/-- A part that signals turn completion: `type == "step-finish"` and
`reason == "stop"` (sse.rs lines 530-533 and 662-663). -/
def step_finish_stop (p : Json) : Bool :=
  decide ((p.get "type").bind Json.asStr = some "step-finish" ∧
          (p.get "reason").bind Json.asStr = some "stop")

/-- Completion condition of the `message.updated` path (sse.rs lines
526-538): `status == "completed"`, or some entry of the top-level `parts`
array (no `info` fallback here) is a step-finish/stop part. -/
def msg_upd_trigger (props : Json) : Bool :=
  decide (resolve_field props "status" = some "completed") ||
  (match (props.get "parts").bind Json.asArr with
   | some arr => arr.any step_finish_stop
   | none => false)

/-- Mode formatting (sse.rs lines 571-579): empty → `"Unknown mode"`, else
first character ASCII-uppercased and the remainder ASCII-lowercased. -/
def formatted_mode (raw_mode : String) : String :=
  if raw_mode = "" then "Unknown mode"
  else
    match raw_mode.toList with
    | [] => "Unknown mode"
    | first :: rest => String.mk (first.toUpper :: rest.map Char.toLower)

/-- The character scan of the model formatter (sse.rs lines 585-608): a `-`
flanked by ASCII digits on both sides becomes `.` inside the current buffer;
any other `-` terminates the buffer as a segment; `prev` tracks the previous
raw character. -/
def model_segments (prev : Option Char) (acc : List Char) : List Char → List (List Char)
  | [] => if acc.isEmpty then [] else [acc.reverse]
  | c :: rest =>
    if c = '-' then
      let numericDash := ((prev.map Char.isDigit).getD false) &&
        (((rest.head?).map Char.isDigit).getD false)
      if numericDash then model_segments (some c) ('.' :: acc) rest
      else if acc.isEmpty then model_segments (some c) [] rest
      else acc.reverse :: model_segments (some c) [] rest
    else model_segments (some c) (c :: acc) rest

/-- Title-casing of one model segment (sse.rs lines 612-618). -/
def title_case_segment (s : List Char) : List Char :=
  match s with
  | [] => []
  | first :: rest => first.toUpper :: rest.map Char.toLower

/-- Model formatting (sse.rs lines 582-625): empty → `"Unknown model"`, else
scan into segments, drop empty segments, title-case each, join with single
spaces; if no segments remain → `"Unknown model"`. -/
def formatted_model (raw_model : String) : String :=
  if raw_model = "" then "Unknown model"
  else
    let segs := model_segments none [] raw_model.toList
    let formattedSegs := (segs.filter (fun s => ¬ s.isEmpty)).map title_case_segment
    if formattedSegs.isEmpty then "Unknown model"
    else String.intercalate " " (formattedSegs.map String.mk)

/-- Metadata caching on `message.updated` (sse.rs lines 417-438): when the
frame resolves a message id and carries `info.modelID` or `info.mode`, merge
them over the existing entry (defaulting to `("unknown model", "unknown mode")`),
keeping the old component where the frame has none. -/
def update_cache_on_message (cache : List (String × String × String)) (value : Json) :
    List (String × String × String) :=
  if (value.get "type").bind Json.asStr = some "message.updated" then
    match value.get "properties" with
    | some props =>
        match resolve_field props "id" with
        | some id =>
            let existing := (cache_get cache id).getD ("unknown model", "unknown mode")
            let mm := extract_model_mode props
            if mm.1.isSome ∨ mm.2.isSome then
              cache_insert cache id (mm.1.getD existing.1, mm.2.getD existing.2)
            else cache
        | none => cache
    | none => cache
  else cache

/-- The `event_id_buf.take()` step (sse.rs lines 482-485 and 704-706): the
pending event id, if any, becomes `last_event_id`, and the pending slot is
always emptied. -/
def take_event_id (st : StreamState) : StreamState :=
  { st with
    event_id_buf := none
    last_event_id := (st.event_id_buf).orElse (fun _ => st.last_event_id) }

/-- Completion detection (sse.rs lines 491-702), after the suppression check:
the `message.updated` branch (status/step-finish, dedup against
`last_completed_id`, cache refresh, formatted notification) and the
`message.part.updated` branch (step-finish/stop part, dedup, raw-text
notification). -/
def detect_completion (st : StreamState) (value : Json) : StreamState × List Out :=
  let eventType := (value.get "type").bind Json.asStr
  if eventType = some "message.updated" then
    match value.get "properties" with
    | some props =>
        match resolve_field props "id" with
        | some id =>
            if msg_upd_trigger props then
              if st.last_completed_id = some id then (st, [])
              else
                let existing := (cache_get st.message_info_cache id).getD
                  ("unknown model", "unknown mode")
                let mm := extract_model_mode props
                let cache' :=
                  if mm.1.isSome ∨ mm.2.isSome then
                    cache_insert st.message_info_cache id
                      (mm.1.getD existing.1, mm.2.getD existing.2)
                  else st.message_info_cache
                let raw := (cache_get cache' id).getD ("unknown model", "unknown mode")
                ({ st with last_completed_id := some id, message_info_cache := cache' },
                 [Out.msgComplete id,
                  Out.notify (formatted_mode raw.2 ++ " agent is ready")
                    (formatted_model raw.1 ++ " completed the task")])
            else (st, [])
        | none => (st, [])
    | none => (st, [])
  else if eventType = some "message.part.updated" then
    match (value.get "properties").bind (fun props => props.get "part") with
    | some part =>
        if step_finish_stop part then
          match ((part.get "messageID").orElse (fun _ => part.get "message_id")).bind Json.asStr with
          | some id =>
              if st.last_completed_id = some id then (st, [])
              else
                let cached := (cache_get st.message_info_cache id).getD
                  ("unknown model", "unknown mode")
                ({ st with last_completed_id := some id },
                 [Out.msgComplete id,
                  Out.notify "Assistant Ready"
                    ("Model " ++ cached.1 ++ " in " ++ cached.2 ++ " mode finished working.")])
          | none => (st, [])
        else (st, [])
    | none => (st, [])
  else (st, [])

/-- Processing of one successfully parsed frame payload (sse.rs lines
405-714): unwrap the envelope, merge metadata, and either drop the frame as a
suppressed placeholder (consuming the pending event id) or run completion
detection, consume the pending event id, push to the replay buffer and
deliver to the sink. -/
def handle_value (st : StreamState) (parsed : Json) : StreamState × List Out :=
  let value := normalize_event parsed
  let st1 := { st with message_info_cache := update_cache_on_message st.message_info_cache value }
  if is_suppressed value then (take_event_id st1, [])
  else
    let r := detect_completion st1 value
    let st2 := take_event_id r.1
    let st3 := { st2 with buffer := buffer_push max_buffer st2.buffer value }
    (st3, r.2 ++ [Out.sink value])

/-- Event-layer run: successive successfully parsed frame payloads fed
through `handle_value`, outputs concatenated in order. -/
def run_frames (st : StreamState) : List Json → StreamState × List Out
  | [] => (st, [])
  | v :: vs =>
      let r := handle_value st v
      let rest := run_frames r.1 vs
      (rest.1, r.2 ++ rest.2)

/-- Extraction of the first complete line of the byte accumulator (sse.rs
line 377: first position of `b'\n'`, then `drain(..=pos)`): returns the bytes
before the first newline and the bytes after it, or `none` when no newline is
present. -/
def take_line : List Nat → Option (List Nat × List Nat)
  | [] => none
  | b :: rest =>
      if b = 10 then some ([], rest)
      else
        match take_line rest with
        | none => none
        | some (l, r) => some (b :: l, r)

/-- Trailing `\n`/`\r` stripping of a drained line (sse.rs lines 379-381). -/
def strip_crlf (l : List Nat) : List Nat :=
  (l.reverse.dropWhile (fun b => b = 10 || b = 13)).reverse

/-- ASCII whitespace, as `char::is_whitespace` restricted to ASCII (the
inputs in this development are ASCII). -/
def is_ws (b : Nat) : Bool :=
  b = 32 || b = 9 || b = 10 || b = 11 || b = 12 || b = 13

/-- `str::trim_start` on bytes. -/
def trim_start (l : List Nat) : List Nat := l.dropWhile is_ws

/-- `str::trim` on bytes. -/
def trim_bytes (l : List Nat) : List Nat :=
  ((l.dropWhile is_ws).reverse.dropWhile is_ws).reverse

/-- The byte sequence of `"data:"`. -/
def data_tag : List Nat := [100, 97, 116, 97, 58]

/-- The byte sequence of `"id:"`. -/
def id_tag : List Nat := [105, 100, 58]

/-- Per-line processing (sse.rs lines 398-739), parameterized by the JSON
parser (`serde_json::from_str`, an external crate).  A leading `:` is a
comment; a blank line terminates the frame, parsing the pending data when
non-empty (success → `handle_value`, failure → a parse-error diagnostic that
leaves `event_id_buf` untouched), and in both cases clears `data_buf`; a
`data:` line appends its left-trimmed remainder (with `\n` between multiple
data lines); an `id:` line records the trimmed remainder as the pending event
id; other lines are ignored.  The time-driven heartbeat (lines 388-396) only
reads and writes `last_heartbeat` and is modelled separately by
`heartbeats`. -/
def process_line (parse : List Nat → Option Json) (st : StreamState) (rawLine : List Nat) :
    StreamState × List Out :=
  let line := strip_crlf rawLine
  if line.head? = some 58 then (st, [])
  else if line.isEmpty then
    if st.data_buf.isEmpty then (st, [])
    else
      match parse st.data_buf with
      | some parsed =>
          let r := handle_value st parsed
          ({ r.1 with data_buf := [] }, r.2)
      | none =>
          ({ st with data_buf := [] }, [Out.statusErr st.data_buf])
  else if line.take 5 = data_tag then
    let rest := trim_start (line.drop 5)
    ({ st with data_buf := (if st.data_buf.isEmpty then [] else st.data_buf ++ [10]) ++ rest }, [])
  else if line.take 3 = id_tag then
    ({ st with event_id_buf := some (trim_bytes (line.drop 3)) }, [])
  else (st, [])

/-- The inner line loop of the chunk handler (sse.rs lines 377-740): extract
and process complete lines while the byte accumulator contains a newline. -/
def drain_lines (parse : List Nat → Option Json) (bytes : List Nat) (st : StreamState)
    (acc : List Out) : List Nat × StreamState × List Out :=
  match h : take_line bytes with
  | none => (bytes, st, acc)
  | some lr =>
      let r := process_line parse st lr.1
      drain_lines parse lr.2 r.1 (acc ++ r.2)
termination_by bytes.length
decreasing_by
  have hs : ∀ (xs : List Nat) (p : List Nat × List Nat),
      take_line xs = some p → p.2.length < xs.length := by
    intro xs
    induction xs with
    | nil => intro p hp; simp [take_line] at hp
    | cons b rest ih =>
        intro p hp
        simp only [take_line] at hp
        split at hp
        · cases hp; simp
        · cases hq : take_line rest with
          | none => rw [hq] at hp; cases hp
          | some q =>
              rw [hq] at hp
              cases hp
              have := ih q hq
              simp only [List.length_cons]
              omega
  exact hs bytes lr h

/-- One read chunk (sse.rs lines 369-376): append the chunk to the byte
accumulator, then drain complete lines. -/
def process_chunk (parse : List Nat → Option Json) (s : List Nat × StreamState)
    (chunk : List Nat) : (List Nat × StreamState) × List Out :=
  let r := drain_lines parse (s.1 ++ chunk) s.2 []
  ((r.1, r.2.1), r.2.2)

/-- Successive read chunks fed through `process_chunk`, outputs concatenated
in arrival order. -/
def process_chunks (parse : List Nat → Option Json) (s : List Nat × StreamState) :
    List (List Nat) → (List Nat × StreamState) × List Out
  | [] => (s, [])
  | c :: cs =>
      let r := process_chunk parse s c
      let rest := process_chunks parse r.1 cs
      (rest.1, r.2 ++ rest.2)

/-- JSON whitespace skipping for the concrete parser model. -/
def jp_ws (s : List Nat) : List Nat :=
  s.dropWhile (fun b => b = 32 || b = 9 || b = 10 || b = 13)

/-- ASCII bytes of a string. -/
def ascii_bytes (s : String) : List Nat := s.toList.map Char.toNat

/-- ASCII string of bytes. -/
def bytes_to_str (bs : List Nat) : String := String.mk (bs.map Char.ofNat)

/-- String literal body: bytes up to the closing quote.  Escape sequences are
not used by any input in this development and make the parse fail. -/
def jp_str_aux : List Nat → List Nat → Option (String × List Nat)
  | [], _ => none
  | b :: rest, acc =>
      if b = 34 then some (bytes_to_str acc.reverse, rest)
      else if b = 92 then none
      else jp_str_aux rest (b :: acc)

/-- Digit run to a natural number. -/
def nat_of_digits (ds : List Nat) : Nat := ds.foldl (fun a b => a * 10 + (b - 48)) 0

/-- Integer literal (floats are not used by any input here and fail). -/
def jp_num (s : List Nat) : Option (Json × List Nat) :=
  let negRest := match s with
    | 45 :: r => (true, r)
    | _ => (false, s)
  let digits := negRest.2.takeWhile (fun b => 48 ≤ b && b ≤ 57)
  let rest := negRest.2.dropWhile (fun b => 48 ≤ b && b ≤ 57)
  if digits.isEmpty then none
  else if rest.head? = some 46 || rest.head? = some 101 || rest.head? = some 69 then none
  else
    let n : Int := nat_of_digits digits
    some (Json.num (if negRest.1 then -n else n), rest)

mutual

/-- Concrete executable model of `serde_json::from_str`'s value grammar on
ASCII input, fuel-indexed for termination: `null`, booleans, integers,
escape-free strings, arrays and objects. -/
def jp_val : Nat → List Nat → Option (Json × List Nat)
  | 0, _ => none
  | fuel + 1, s =>
      match jp_ws s with
      | [] => none
      | b :: rest =>
          if b = 110 then
            if rest.take 3 = [117, 108, 108] then some (Json.null, rest.drop 3) else none
          else if b = 116 then
            if rest.take 3 = [114, 117, 101] then some (Json.bool true, rest.drop 3) else none
          else if b = 102 then
            if rest.take 4 = [97, 108, 115, 101] then some (Json.bool false, rest.drop 4) else none
          else if b = 34 then
            match jp_str_aux rest [] with
            | some sr => some (Json.str sr.1, sr.2)
            | none => none
          else if b = 91 then
            match jp_ws rest with
            | 93 :: r => some (Json.arr [], r)
            | other => jp_arr fuel other []
          else if b = 123 then
            match jp_ws rest with
            | 125 :: r => some (Json.obj [], r)
            | other => jp_obj fuel other []
          else if b = 45 || (48 ≤ b && b ≤ 57) then jp_num (b :: rest)
          else none

/-- Array elements after the opening bracket (non-empty case). -/
def jp_arr : Nat → List Nat → List Json → Option (Json × List Nat)
  | 0, _, _ => none
  | fuel + 1, s, acc =>
      match jp_val fuel s with
      | none => none
      | some vr =>
          match jp_ws vr.2 with
          | 44 :: r => jp_arr fuel r (vr.1 :: acc)
          | 93 :: r => some (Json.arr (vr.1 :: acc).reverse, r)
          | _ => none

/-- Object members after the opening brace (non-empty case). -/
def jp_obj : Nat → List Nat → List (String × Json) → Option (Json × List Nat)
  | 0, _, _ => none
  | fuel + 1, s, acc =>
      match jp_ws s with
      | 34 :: rest =>
          match jp_str_aux rest [] with
          | none => none
          | some kr =>
              match jp_ws kr.2 with
              | 58 :: r =>
                  match jp_val fuel r with
                  | none => none
                  | some vr =>
                      match jp_ws vr.2 with
                      | 44 :: r2 => jp_obj fuel r2 ((kr.1, vr.1) :: acc)
                      | 125 :: r2 => some (Json.obj ((kr.1, vr.1) :: acc).reverse, r2)
                      | _ => none
              | _ => none
      | _ => none

end

/-- Model of `serde_json::from_str::<Value>`: parse one value and require the
rest of the input to be whitespace. -/
def json_parse (s : List Nat) : Option Json :=
  match jp_val (s.length + 1) s with
  | some vr => if (jp_ws vr.2).isEmpty then some vr.1 else none
  | none => none

/-- The heartbeat rule of the streaming loop (sse.rs lines 388-396),
projected onto its own state: the check runs once per processed line, and
`last_heartbeat` only interacts with this rule.  Given the time of the
previous heartbeat and the arrival times of successive processed lines, the
result is the times at which a heartbeat diagnostic is emitted: a line emits
one exactly when more than 20 seconds elapsed since the previous heartbeat,
which then resets to that line's time. -/
def heartbeats (lastHb : Nat) : List Nat → List Nat
  | [] => []
  | t :: ts => if 20 < t - lastHb then t :: heartbeats t ts else heartbeats lastHb ts

/-- The notification invocations among a list of outputs. -/
def notify_outs (outs : List Out) : List Out :=
  outs.filter (fun o => match o with
    | Out.notify _ _ => true
    | _ => false)

/-- Number of notification invocations among a list of outputs. -/
def notif_count (outs : List Out) : Nat := (notify_outs outs).length

/-- Whether an output is the `opencode:message-complete` emission for a given
message id. -/
def is_complete_for (id : String) (o : Out) : Bool :=
  match o with
  | Out.msgComplete i => i = id
  | _ => false

/-- The message id with which a frame updates the completion guard, `none`
when the frame is not completion-triggering (mirrors the branch structure of
`handle_value`: suppressed placeholders and frames that fail the completion
condition never touch the guard). -/
def trigger_id (parsed : Json) : Option String :=
  let value := normalize_event parsed
  if is_suppressed value then none
  else
    let eventType := (value.get "type").bind Json.asStr
    if eventType = some "message.updated" then
      match value.get "properties" with
      | some props =>
          match resolve_field props "id" with
          | some id => if msg_upd_trigger props then some id else none
          | none => none
      | none => none
    else if eventType = some "message.part.updated" then
      match (value.get "properties").bind (fun props => props.get "part") with
      | some part =>
          if step_finish_stop part then
            ((part.get "messageID").orElse (fun _ => part.get "message_id")).bind Json.asStr
          else none
      | none => none
    else none

/-- Guard/notification bookkeeping of a sequence of triggering ids: a fresh
id (different from the current guard) notifies and becomes the guard. -/
def notif_fold : Option String → List String → Nat
  | _, [] => 0
  | g, i :: is => if g = some i then notif_fold g is else 1 + notif_fold (some i) is

/-- Event-layer run over raw SSE lines. -/
def run_lines (parse : List Nat → Option Json) (st : StreamState) :
    List (List Nat) → StreamState × List Out
  | [] => (st, [])
  | l :: ls =>
      let r := process_line parse st l
      let rest := run_lines parse r.1 ls
      (rest.1, r.2 ++ rest.2)

/-- A `message.updated` frame for the given id with `status: "completed"`. -/
def completed_frame (id : String) : Json :=
  Json.obj [("type", Json.str "message.updated"),
    ("properties", Json.obj [("id", Json.str id), ("status", Json.str "completed")])]

/-- A completed `message.updated` frame for id m4 that also carries
`info.modelID` and `info.mode` (exercising the cache-refresh path, sse.rs
lines 547-557). -/
def completed_info_frame : Json :=
  Json.obj [("type", Json.str "message.updated"),
    ("properties", Json.obj [("id", Json.str "m4"), ("status", Json.str "completed"),
      ("info", Json.obj [("modelID", Json.str "claude-3-5-sonnet"),
        ("mode", Json.str "build")])])]

/-- The exact frame of the claim:
an assistant `message.updated` for id m1 with an empty parts array. -/
def placeholder_frame : Json :=
  Json.obj [("type", Json.str "message.updated"),
    ("properties", Json.obj [("id", Json.str "m1"), ("role", Json.str "assistant"),
      ("parts", Json.arr [])])]

/-- An assistant placeholder (suppressed) frame that carries metadata in
`info`: id m1, model `claude-3-5-sonnet`, mode `build`. -/
def meta_placeholder_frame : Json :=
  Json.obj [("type", Json.str "message.updated"),
    ("properties", Json.obj [("info", Json.obj [("id", Json.str "m1"),
      ("role", Json.str "assistant"), ("modelID", Json.str "claude-3-5-sonnet"),
      ("mode", Json.str "build")])])]

/-- A `message.part.updated` frame whose part is a step-finish/stop for the
given message id. -/
def stop_part_frame (id : String) : Json :=
  Json.obj [("type", Json.str "message.part.updated"),
    ("properties", Json.obj [("part", Json.obj [("type", Json.str "step-finish"),
      ("reason", Json.str "stop"), ("messageID", Json.str id)])])]

/-- Extracting a complete line strictly shrinks the accumulator. -/
theorem take_line_shrink : ∀ (bytes : List Nat) (p : List Nat × List Nat),
    take_line bytes = some p → p.2.length < bytes.length := by
  intro bytes
  induction bytes with
  | nil => intro p h; simp [take_line] at h
  | cons b rest ih =>
      intro p h
      simp only [take_line] at h
      split at h
      · cases h; simp
      · cases h' : take_line rest with
        | none => rw [h'] at h; cases h
        | some q =>
            rw [h'] at h
            cases h
            have := ih q h'
            simp only [List.length_cons]
            omega

theorem take_line_cons_nl (rest : List Nat) : take_line (10 :: rest) = some ([], rest) := by
  simp [take_line]

theorem take_line_cons (b : Nat) (rest : List Nat) (hb : b ≠ 10) :
    take_line (b :: rest) = (take_line rest).map (fun p => (b :: p.1, p.2)) := by
  simp only [take_line, if_neg hb]
  cases h : take_line rest with
  | none => simp
  | some q => simp

theorem take_line_none_iff (xs : List Nat) : take_line xs = none ↔ 10 ∉ xs := by
  induction xs with
  | nil => simp [take_line]
  | cons b rest ih =>
      by_cases hb : b = 10
      · subst hb
        simp [take_line_cons_nl]
      · rw [take_line_cons b rest hb]
        cases h : take_line rest with
        | none =>
            simp only [List.mem_cons]
            constructor
            · intro _ hc
              rcases hc with hc | hc
              · exact hb hc.symm
              · exact (ih.mp h) hc
            · intro _
              rfl
        | some q =>
            simp only [List.mem_cons]
            constructor
            · intro hc
              exact Option.noConfusion hc
            · intro hc
              exfalso
              have hnr : 10 ∉ rest := fun hm => hc (Or.inr hm)
              rw [ih.mpr hnr] at h
              exact Option.noConfusion h

theorem take_line_append_some (xs ys : List Nat) (p : List Nat × List Nat)
    (h : take_line xs = some p) : take_line (xs ++ ys) = some (p.1, p.2 ++ ys) := by
  induction xs generalizing p with
  | nil => simp [take_line] at h
  | cons b rest ih =>
      by_cases hb : b = 10
      · subst hb
        rw [take_line_cons_nl] at h
        cases h
        simpa using take_line_cons_nl (rest ++ ys)
      · rw [take_line_cons b rest hb] at h
        cases h' : take_line rest with
        | none => rw [h'] at h; cases h
        | some q =>
            rw [h'] at h
            cases h
            rw [show (b :: rest) ++ ys = b :: (rest ++ ys) from rfl,
              take_line_cons b (rest ++ ys) hb, ih q h']
            rfl

theorem take_line_append_none (xs ys : List Nat) (h : take_line xs = none) :
    take_line (xs ++ ys) = (take_line ys).map (fun q => (xs ++ q.1, q.2)) := by
  induction xs with
  | nil =>
      simp only [List.nil_append]
      cases hy : take_line ys with
      | none => simp
      | some q => simp
  | cons b rest ih =>
      by_cases hb : b = 10
      · subst hb
        rw [take_line_cons_nl] at h
        cases h
      · rw [take_line_cons b rest hb] at h
        cases h' : take_line rest with
        | some q => rw [h'] at h; cases h
        | none =>
            rw [show (b :: rest) ++ ys = b :: (rest ++ ys) from rfl,
              take_line_cons b (rest ++ ys) hb, ih h']
            cases hy : take_line ys with
            | none => simp
            | some q => simp

theorem drain_lines_eq_none (parse : List Nat → Option Json) (bytes : List Nat)
    (st : StreamState) (acc : List Out) (h : take_line bytes = none) :
    drain_lines parse bytes st acc = (bytes, st, acc) := by
  rw [drain_lines]
  split
  · rfl
  · rename_i heq
    rw [h] at heq
    cases heq

theorem drain_lines_eq_some (parse : List Nat → Option Json) (bytes : List Nat)
    (st : StreamState) (acc : List Out) (lr : List Nat × List Nat)
    (h : take_line bytes = some lr) :
    drain_lines parse bytes st acc =
      drain_lines parse lr.2 (process_line parse st lr.1).1
        (acc ++ (process_line parse st lr.1).2) := by
  rw [drain_lines]
  split
  · rename_i heq
    rw [h] at heq
    cases heq
  · rename_i lr' heq
    rw [h] at heq
    cases heq
    rfl

theorem drain_lines_rem_no_newline (parse : List Nat → Option Json) :
    ∀ (n : Nat) (bytes : List Nat), bytes.length ≤ n → ∀ (st : StreamState) (acc : List Out),
    take_line (drain_lines parse bytes st acc).1 = none := by
  intro n
  induction n with
  | zero =>
      intro bytes hb st acc
      have : bytes = [] := List.eq_nil_of_length_eq_zero (Nat.le_zero.mp hb)
      subst this
      rw [drain_lines_eq_none parse [] st acc (by simp [take_line])]
      simp [take_line]
  | succ n ih =>
      intro bytes hb st acc
      cases h : take_line bytes with
      | none => rw [drain_lines_eq_none parse bytes st acc h]; exact h
      | some lr =>
          rw [drain_lines_eq_some parse bytes st acc lr h]
          have := take_line_shrink bytes lr h
          exact ih lr.2 (by omega) _ _

theorem drain_lines_acc (parse : List Nat → Option Json) :
    ∀ (n : Nat) (bytes : List Nat), bytes.length ≤ n → ∀ (st : StreamState) (acc : List Out),
    drain_lines parse bytes st acc =
      ((drain_lines parse bytes st []).1, (drain_lines parse bytes st []).2.1,
        acc ++ (drain_lines parse bytes st []).2.2) := by
  intro n
  induction n with
  | zero =>
      intro bytes hb st acc
      have : bytes = [] := List.eq_nil_of_length_eq_zero (Nat.le_zero.mp hb)
      subst this
      rw [drain_lines_eq_none parse [] st acc (by simp [take_line]),
        drain_lines_eq_none parse [] st [] (by simp [take_line])]
      simp
  | succ n ih =>
      intro bytes hb st acc
      cases h : take_line bytes with
      | none =>
          rw [drain_lines_eq_none parse bytes st acc h,
            drain_lines_eq_none parse bytes st [] h]
          simp
      | some lr =>
          rw [drain_lines_eq_some parse bytes st acc lr h,
            drain_lines_eq_some parse bytes st [] lr h]
          have hs := take_line_shrink bytes lr h
          rw [ih lr.2 (by omega) (process_line parse st lr.1).1
            (acc ++ (process_line parse st lr.1).2),
            ih lr.2 (by omega) (process_line parse st lr.1).1
            ([] ++ (process_line parse st lr.1).2)]
          simp

theorem drain_lines_append (parse : List Nat → Option Json) :
    ∀ (n : Nat) (b1 : List Nat), b1.length ≤ n → ∀ (b2 : List Nat) (st : StreamState) (acc : List Out),
    drain_lines parse (b1 ++ b2) st acc =
      drain_lines parse ((drain_lines parse b1 st acc).1 ++ b2)
        (drain_lines parse b1 st acc).2.1 (drain_lines parse b1 st acc).2.2 := by
  intro n
  induction n with
  | zero =>
      intro b1 hb b2 st acc
      have : b1 = [] := List.eq_nil_of_length_eq_zero (Nat.le_zero.mp hb)
      subst this
      rw [drain_lines_eq_none parse [] st acc (by simp [take_line])]
  | succ n ih =>
      intro b1 hb b2 st acc
      cases h : take_line b1 with
      | none =>
          rw [drain_lines_eq_none parse b1 st acc h]
      | some lr =>
          have h2 : take_line (b1 ++ b2) = some (lr.1, lr.2 ++ b2) :=
            take_line_append_some b1 b2 lr h
          rw [drain_lines_eq_some parse (b1 ++ b2) st acc (lr.1, lr.2 ++ b2) h2,
            drain_lines_eq_some parse b1 st acc lr h]
          have hs := take_line_shrink b1 lr h
          exact ih lr.2 (by omega) b2 (process_line parse st lr.1).1
            (acc ++ (process_line parse st lr.1).2)

theorem process_chunks_flatten (parse : List Nat → Option Json) :
    ∀ (chunks : List (List Nat)) (s : List Nat × StreamState), take_line s.1 = none →
    process_chunks parse s chunks = process_chunk parse s chunks.flatten := by
  intro chunks
  induction chunks with
  | nil =>
      intro s hs
      simp only [process_chunks, process_chunk, List.flatten_nil, List.append_nil]
      rw [drain_lines_eq_none parse s.1 s.2 [] hs]
  | cons c cs ih =>
      intro s hs
      have hd : take_line (drain_lines parse (s.1 ++ c) s.2 []).1 = none :=
        drain_lines_rem_no_newline parse (s.1 ++ c).length (s.1 ++ c) le_rfl s.2 []
      have hih := ih ((drain_lines parse (s.1 ++ c) s.2 []).1,
        (drain_lines parse (s.1 ++ c) s.2 []).2.1) hd
      simp only [process_chunks, process_chunk, List.flatten_cons] at hih ⊢
      rw [hih]
      rw [show s.1 ++ (c ++ cs.flatten) = (s.1 ++ c) ++ cs.flatten from
        (List.append_assoc s.1 c cs.flatten).symm]
      rw [drain_lines_append parse (s.1 ++ c).length (s.1 ++ c) le_rfl cs.flatten s.2 []]
      rw [drain_lines_acc parse
        ((drain_lines parse (s.1 ++ c) s.2 []).1 ++ cs.flatten).length
        ((drain_lines parse (s.1 ++ c) s.2 []).1 ++ cs.flatten) le_rfl
        (drain_lines parse (s.1 ++ c) s.2 []).2.1
        (drain_lines parse (s.1 ++ c) s.2 []).2.2]

/-- Claim C2: for every JSON parser and every partition of a byte stream into
successive chunks, feeding the chunks one at a time through the incremental
frame parser from a fresh connection state (empty byte accumulator, sse.rs
line 330) produces exactly the same final state and the same output sequence
— in particular the same decoded frames, with the same parsed data payloads
and the same event ids in the same order — as feeding the whole stream as one
chunk. -/
theorem c2_chunk_split_invariance (parse : List Nat → Option Json) (st : StreamState)
    (chunks : List (List Nat)) :
    process_chunks parse ([], st) chunks = process_chunk parse ([], st) chunks.flatten :=
  process_chunks_flatten parse chunks ([], st) (by simp [take_line])

theorem handle_value_guard (st : StreamState) (parsed : Json) :
    (handle_value st parsed).1.last_completed_id =
      match trigger_id parsed with
      | some i => some i
      | none => st.last_completed_id := by
  simp only [handle_value, trigger_id]
  cases hsup : is_suppressed (normalize_event parsed)
  · simp only [Bool.false_eq_true, if_false]
    simp only [detect_completion]
    split
    · split
      · split
        · split
          · split
            · simp_all [take_event_id]
            · simp [take_event_id]
          · simp [take_event_id]
        · simp [take_event_id]
      · simp [take_event_id]
    · split
      · split
        · split
          · split
            · split
              · simp_all [take_event_id]
              · simp [take_event_id]
            · simp [take_event_id]
          · simp [take_event_id]
        · simp [take_event_id]
      · simp [take_event_id]
  · simp [take_event_id]

theorem handle_value_notif (st : StreamState) (parsed : Json) :
    notif_count (handle_value st parsed).2 =
      match trigger_id parsed with
      | some i => if st.last_completed_id = some i then 0 else 1
      | none => 0 := by
  simp only [handle_value, trigger_id]
  cases hsup : is_suppressed (normalize_event parsed)
  · simp only [Bool.false_eq_true, if_false]
    simp only [detect_completion]
    split
    · split
      · split
        · split
          · split
            · simp_all [notif_count, notify_outs]
            · simp_all [notif_count, notify_outs]
          · simp [notif_count, notify_outs]
        · simp [notif_count, notify_outs]
      · simp [notif_count, notify_outs]
    · split
      · split
        · split
          · split
            · split
              · simp_all [notif_count, notify_outs]
              · simp_all [notif_count, notify_outs]
            · simp [notif_count, notify_outs]
          · simp [notif_count, notify_outs]
        · simp [notif_count, notify_outs]
      · simp [notif_count, notify_outs]
  · simp [notif_count, notify_outs]

theorem notif_count_append (a b : List Out) :
    notif_count (a ++ b) = notif_count a + notif_count b := by
  simp [notif_count, notify_outs, List.filter_append]

theorem run_frames_notif_count (vs : List Json) :
    ∀ (st : StreamState),
    notif_count (run_frames st vs).2 =
      notif_fold st.last_completed_id (vs.filterMap trigger_id) := by
  induction vs with
  | nil => intro st; simp [run_frames, notif_count, notify_outs, notif_fold]
  | cons v vs ih =>
      intro st
      simp only [run_frames, List.filterMap_cons]
      rw [notif_count_append, handle_value_notif, ih (handle_value st v).1,
        handle_value_guard]
      cases h : trigger_id v with
      | none => simp
      | some i =>
          by_cases hg : st.last_completed_id = some i
          · simp [notif_fold, hg]
          · simp [notif_fold, hg]

/-- Claim C6: if the processed stream contains exactly two
completion-triggering frames and both carry the same message id, exactly one
notification invocation occurs in total (sse.rs lines 538-541: the second
trigger finds `last_completed_id` equal to its id and is a no-op). -/
theorem c6_two_triggers_same_id (frames : List Json) (m : String)
    (h : frames.filterMap trigger_id = [m, m]) :
    notif_count (run_frames init_state frames).2 = 1 := by
  rw [run_frames_notif_count frames init_state, h]
  simp [init_state, notif_fold]

theorem c6_witness :
    [completed_frame "m2", completed_frame "m2"].filterMap trigger_id = ["m2", "m2"]
    ∧ notif_count (run_frames init_state [completed_frame "m2", completed_frame "m2"]).2 = 1 :=
  ⟨rfl, c6_two_triggers_same_id [completed_frame "m2", completed_frame "m2"] "m2" rfl⟩

/-- Counterexample to claim C1 as stated: the guard holds only the single
most recently notified id (sse.rs line 539), so in the stream m1-completed,
m2-completed, m1-completed the third frame notifies m1 a second time — three
notifications in total, two `message-complete` emissions for id m1, within
one `stream_events` run. -/
theorem c1_counterexample :
    ((run_frames init_state
        [completed_frame "m1", completed_frame "m2", completed_frame "m1"]).2.filter
      (is_complete_for "m1")).length = 2
    ∧ notif_count (run_frames init_state
        [completed_frame "m1", completed_frame "m2", completed_frame "m1"]).2 = 3 :=
  ⟨rfl, rfl⟩

/-- Claim C1 as amended: the completion guard deduplicates only against the
immediately previous notified id — a completion-triggering frame for id `i`
fires no notification exactly when the guard currently equals `i`, fires
exactly one otherwise, and in both cases leaves the guard at `i`. -/
theorem c1_guard_dedups_last_notified_only (st : StreamState) (parsed : Json) (i : String)
    (h : trigger_id parsed = some i) :
    ((st.last_completed_id = some i → notif_count (handle_value st parsed).2 = 0)
     ∧ (st.last_completed_id ≠ some i → notif_count (handle_value st parsed).2 = 1))
    ∧ (handle_value st parsed).1.last_completed_id = some i := by
  refine ⟨⟨?_, ?_⟩, ?_⟩
  · intro hg
    rw [handle_value_notif, h]
    simp [hg]
  · intro hg
    rw [handle_value_notif, h]
    simp [hg]
  · rw [handle_value_guard, h]

theorem c1_witness :
    trigger_id (completed_frame "m1") = some "m1"
    ∧ notif_count (handle_value init_state (completed_frame "m1")).2 = 1 :=
  ⟨rfl,
    (c1_guard_dedups_last_notified_only init_state (completed_frame "m1") "m1" rfl).1.2
      (by simp [init_state])⟩

theorem buffer_push_foldl (c : Nat) (hc : 0 < c) :
    ∀ (l buf : List Json), buf.length ≤ c →
    List.foldl (buffer_push c) buf l = (buf ++ l).drop (buf.length + l.length - c) := by
  intro l
  induction l with
  | nil =>
      intro buf hb
      simp only [List.foldl_nil, List.append_nil, List.length_nil, Nat.add_zero]
      rw [Nat.sub_eq_zero_of_le hb]
      simp
  | cons v l ih =>
      intro buf hb
      rcases lt_or_eq_of_le hb with hlt | heq
      · have hpush : buffer_push c buf v = buf ++ [v] := by
          simp only [buffer_push, if_neg (by omega : ¬ c ≤ buf.length)]
        simp only [List.foldl_cons, hpush]
        rw [ih (buf ++ [v]) (by simp; omega)]
        have harith : (buf ++ [v]).length + l.length - c =
            buf.length + (v :: l).length - c := by simp; omega
        rw [harith, List.append_assoc]
        rfl
      · have hpush : buffer_push c buf v = buf.drop 1 ++ [v] := by
          simp only [buffer_push, if_pos (by omega : c ≤ buf.length)]
        simp only [List.foldl_cons, hpush]
        rw [ih (buf.drop 1 ++ [v]) (by simp [List.length_drop]; omega)]
        have hlen : (buf.drop 1 ++ [v]).length + l.length - c = l.length := by
          simp [List.length_drop]; omega
        have hlen2 : buf.length + (v :: l).length - c = l.length + 1 := by
          simp; omega
        rw [hlen, hlen2]
        cases buf with
        | nil => simp at heq; omega
        | cons b buf' => simp

/-- Claim C3: pushing more than 256 events into the replay buffer never lets
its length exceed 256, each push at capacity evicts exactly the oldest entry
first, and the resulting buffer (what `replay_buffer` snapshots, sse.rs lines
294-296) is exactly the last 256 pushed events in arrival order. -/
theorem c3_replay_buffer_fifo (events : List Json) (h : max_buffer < events.length) :
    (∀ n : Nat, (List.foldl (buffer_push max_buffer) [] (events.take n)).length ≤ max_buffer)
    ∧ List.foldl (buffer_push max_buffer) [] events = events.drop (events.length - max_buffer)
    ∧ (List.foldl (buffer_push max_buffer) [] events).length = max_buffer
    ∧ (∀ (buf : List Json) (v : Json), max_buffer ≤ buf.length →
        buffer_push max_buffer buf v = buf.drop 1 ++ [v]) := by
  have hc : 0 < max_buffer := by simp [max_buffer]
  have hfold : ∀ (l : List Json),
      List.foldl (buffer_push max_buffer) [] l = l.drop (l.length - max_buffer) := by
    intro l
    have := buffer_push_foldl max_buffer hc l [] (by simp)
    simpa using this
  refine ⟨?_, ?_, ?_, ?_⟩
  · intro n
    rw [hfold (events.take n)]
    rw [List.length_drop]
    omega
  · exact hfold events
  · rw [hfold events]
    simp [List.length_drop]
    omega
  · intro buf v hb
    simp only [buffer_push, if_pos hb]

theorem c3_witness :
    max_buffer < (List.replicate 257 Json.null).length
    ∧ List.foldl (buffer_push max_buffer) [] (List.replicate 257 Json.null)
      = (List.replicate 257 Json.null).drop ((List.replicate 257 Json.null).length - max_buffer) :=
  ⟨by rw [List.length_replicate]; norm_num [max_buffer],
   (c3_replay_buffer_fifo _ (by rw [List.length_replicate]; norm_num [max_buffer])).2.1⟩

theorem handle_value_part_notify (st : StreamState) (w : Json) (part : Json) (i : String)
    (hty : ((normalize_event w).get "type").bind Json.asStr = some "message.part.updated")
    (hpart : ((normalize_event w).get "properties").bind (fun p => p.get "part") = some part)
    (hstop : step_finish_stop part = true)
    (hid : ((part.get "messageID").orElse (fun _ => part.get "message_id")).bind Json.asStr
      = some i)
    (hguard : st.last_completed_id ≠ some i) :
    (handle_value st w).2 =
      [Out.msgComplete i,
       Out.notify "Assistant Ready"
         ("Model " ++ ((cache_get st.message_info_cache i).getD ("unknown model", "unknown mode")).1
          ++ " in " ++ ((cache_get st.message_info_cache i).getD ("unknown model", "unknown mode")).2
          ++ " mode finished working."),
       Out.sink (normalize_event w)]
    ∧ (handle_value st w).1.message_info_cache = st.message_info_cache := by
  have hns : is_suppressed (normalize_event w) = false := by
    simp [is_suppressed, hty]
  have hcache : update_cache_on_message st.message_info_cache (normalize_event w)
      = st.message_info_cache := by
    simp [update_cache_on_message, hty]
  simp [handle_value, hns, hcache, detect_completion, hty, hpart, hstop, hid, hguard,
    take_event_id]

theorem handle_value_updated_notify (st : StreamState) (v : Json) (props : Json) (i : String)
    (hty : ((normalize_event v).get "type").bind Json.asStr = some "message.updated")
    (hprops : (normalize_event v).get "properties" = some props)
    (hnsup : is_suppressed (normalize_event v) = false)
    (hid : resolve_field props "id" = some i)
    (htrig : msg_upd_trigger props = true)
    (hguard : st.last_completed_id ≠ some i) :
    (handle_value st v).2 =
      [Out.msgComplete i,
       Out.notify
         (formatted_mode
             ((extract_model_mode props).2.getD
               ((cache_get st.message_info_cache i).getD ("unknown model", "unknown mode")).2)
           ++ " agent is ready")
         (formatted_model
             ((extract_model_mode props).1.getD
               ((cache_get st.message_info_cache i).getD ("unknown model", "unknown mode")).1)
           ++ " completed the task"),
       Out.sink (normalize_event v)] := by
  rcases hmm : extract_model_mode props with ⟨mo, md⟩
  cases mo <;> cases md <;>
    simp [handle_value, update_cache_on_message, hnsup, detect_completion, hty, hprops,
      hid, htrig, hmm, hguard, take_event_id, cache_insert, cache_get]

/-- Claim C4: a `message.updated` frame whose resolved role is `assistant`
and whose resolved parts vector is empty is dropped entirely (sse.rs lines
460-488): no output is produced — nothing delivered to the sink, nothing
appended to the replay buffer, no completion evaluation and no notification —
and the completion guard is untouched. -/
theorem c4_assistant_placeholder_dropped (st : StreamState) (parsed : Json) (props : Json)
    (hty : ((normalize_event parsed).get "type").bind Json.asStr = some "message.updated")
    (hprops : (normalize_event parsed).get "properties" = some props)
    (hrole : resolve_field props "role" = some "assistant")
    (hparts : resolve_parts props = []) :
    (handle_value st parsed).2 = []
    ∧ (handle_value st parsed).1.buffer = st.buffer
    ∧ (handle_value st parsed).1.last_completed_id = st.last_completed_id := by
  have hsup : is_suppressed (normalize_event parsed) = true := by
    simp [is_suppressed, hty, hprops, hrole, hparts]
  simp [handle_value, hsup, take_event_id]

theorem c4_witness :
    ((normalize_event placeholder_frame).get "type").bind Json.asStr = some "message.updated"
    ∧ (handle_value init_state placeholder_frame).2 = []
    ∧ (handle_value init_state placeholder_frame).1.buffer = init_state.buffer :=
  ⟨rfl,
   (c4_assistant_placeholder_dropped init_state placeholder_frame
     (Json.obj [("id", Json.str "m1"), ("role", Json.str "assistant"),
       ("parts", Json.arr [])]) rfl rfl rfl rfl).1,
   (c4_assistant_placeholder_dropped init_state placeholder_frame
     (Json.obj [("id", Json.str "m1"), ("role", Json.str "assistant"),
       ("parts", Json.arr [])]) rfl rfl rfl rfl).2.1⟩

/-- Claim C10: a suppressed assistant placeholder still merges any
`info.modelID` / `info.mode` it carries — either one alone or both — into the
metadata cache before being dropped (the caching block at sse.rs lines
417-438, with its partial merge at 431-434, runs before the suppression check
at 440-488), produces no outputs, leaves buffer and guard untouched, and a
later completion for the same id (here on the `message.part.updated` path)
reads exactly the merged model and mode for its notification body. -/
theorem c10_placeholder_merges_metadata (st : StreamState) (parsed : Json) (props : Json)
    (i : String)
    (hty : ((normalize_event parsed).get "type").bind Json.asStr = some "message.updated")
    (hprops : (normalize_event parsed).get "properties" = some props)
    (hrole : resolve_field props "role" = some "assistant")
    (hparts : resolve_parts props = [])
    (hid : resolve_field props "id" = some i)
    (hcarry : (extract_model_mode props).1.isSome ∨ (extract_model_mode props).2.isSome) :
    (handle_value st parsed).2 = []
    ∧ (handle_value st parsed).1.message_info_cache
        = cache_insert st.message_info_cache i
            ((extract_model_mode props).1.getD
              ((cache_get st.message_info_cache i).getD ("unknown model", "unknown mode")).1,
             (extract_model_mode props).2.getD
              ((cache_get st.message_info_cache i).getD ("unknown model", "unknown mode")).2)
    ∧ cache_get (handle_value st parsed).1.message_info_cache i
        = some ((extract_model_mode props).1.getD
              ((cache_get st.message_info_cache i).getD ("unknown model", "unknown mode")).1,
             (extract_model_mode props).2.getD
              ((cache_get st.message_info_cache i).getD ("unknown model", "unknown mode")).2)
    ∧ (handle_value st parsed).1.last_completed_id = st.last_completed_id
    ∧ (handle_value st parsed).1.buffer = st.buffer
    ∧ (∀ (w : Json) (part : Json),
        ((normalize_event w).get "type").bind Json.asStr = some "message.part.updated" →
        ((normalize_event w).get "properties").bind (fun p => p.get "part") = some part →
        step_finish_stop part = true →
        ((part.get "messageID").orElse (fun _ => part.get "message_id")).bind Json.asStr
          = some i →
        st.last_completed_id ≠ some i →
        notify_outs (run_frames st [parsed, w]).2
          = [Out.notify "Assistant Ready"
              ("Model "
               ++ ((extract_model_mode props).1.getD
                    ((cache_get st.message_info_cache i).getD
                      ("unknown model", "unknown mode")).1)
               ++ " in "
               ++ ((extract_model_mode props).2.getD
                    ((cache_get st.message_info_cache i).getD
                      ("unknown model", "unknown mode")).2)
               ++ " mode finished working.")]) := by
  have hsup : is_suppressed (normalize_event parsed) = true := by
    simp [is_suppressed, hty, hprops, hrole, hparts]
  have hcache : update_cache_on_message st.message_info_cache (normalize_event parsed)
      = cache_insert st.message_info_cache i
          ((extract_model_mode props).1.getD
            ((cache_get st.message_info_cache i).getD ("unknown model", "unknown mode")).1,
           (extract_model_mode props).2.getD
            ((cache_get st.message_info_cache i).getD ("unknown model", "unknown mode")).2) := by
    rcases hmm : extract_model_mode props with ⟨mo, md⟩
    rw [hmm] at hcarry
    cases mo with
    | none =>
        cases md with
        | none => simp at hcarry
        | some d => simp [update_cache_on_message, hty, hprops, hid, hmm]
    | some m =>
        cases md <;> simp [update_cache_on_message, hty, hprops, hid, hmm]
  have hstate : (handle_value st parsed).1 =
      take_event_id { st with
        message_info_cache := cache_insert st.message_info_cache i
          ((extract_model_mode props).1.getD
            ((cache_get st.message_info_cache i).getD ("unknown model", "unknown mode")).1,
           (extract_model_mode props).2.getD
            ((cache_get st.message_info_cache i).getD ("unknown model", "unknown mode")).2) } := by
    simp [handle_value, hsup, hcache]
  have houts : (handle_value st parsed).2 = [] := by
    simp [handle_value, hsup]
  refine ⟨houts, ?_, ?_, ?_, ?_, ?_⟩
  · rw [hstate]; simp [take_event_id]
  · rw [hstate]; simp [take_event_id, cache_insert, cache_get]
  · rw [hstate]; simp [take_event_id]
  · rw [hstate]; simp [take_event_id]
  · intro w part hwty hwpart hwstop hwid hwguard
    have hg1 : (handle_value st parsed).1.last_completed_id = st.last_completed_id := by
      rw [hstate]; simp [take_event_id]
    have hc1 : cache_get (handle_value st parsed).1.message_info_cache i
        = some ((extract_model_mode props).1.getD
            ((cache_get st.message_info_cache i).getD ("unknown model", "unknown mode")).1,
           (extract_model_mode props).2.getD
            ((cache_get st.message_info_cache i).getD ("unknown model", "unknown mode")).2) := by
      rw [hstate]; simp [take_event_id, cache_insert, cache_get]
    have hpn := handle_value_part_notify (handle_value st parsed).1 w part i hwty hwpart
      hwstop hwid (by rw [hg1]; exact hwguard)
    simp only [run_frames, List.append_nil]
    rw [houts]
    rw [hpn.1]
    simp [hc1, notify_outs]

theorem c10_witness :
    extract_model_mode (Json.obj [("info", Json.obj [("id", Json.str "m1"),
        ("role", Json.str "assistant"), ("modelID", Json.str "claude-3-5-sonnet"),
        ("mode", Json.str "build")])])
      = (some "claude-3-5-sonnet", some "build")
    ∧ notify_outs (run_frames init_state [meta_placeholder_frame, stop_part_frame "m1"]).2
      = [Out.notify "Assistant Ready"
          "Model claude-3-5-sonnet in build mode finished working."] :=
  ⟨rfl,
   (c10_placeholder_merges_metadata init_state meta_placeholder_frame
      (Json.obj [("info", Json.obj [("id", Json.str "m1"),
        ("role", Json.str "assistant"), ("modelID", Json.str "claude-3-5-sonnet"),
        ("mode", Json.str "build")])])
      "m1" rfl rfl rfl rfl rfl (Or.inl rfl)).2.2.2.2.2
     (stop_part_frame "m1")
     (Json.obj [("type", Json.str "step-finish"), ("reason", Json.str "stop"),
       ("messageID", Json.str "m1")])
     rfl rfl rfl rfl (by simp [init_state])⟩

/-- Claim C5 as amended: only the `message.updated` completion path formats
the notification through `formatted_mode` / `formatted_model` (sse.rs lines
570-636), applied to the cached metadata merged with any `info.modelID` /
`info.mode` the completion frame itself carries (the cache refresh at sse.rs
lines 547-557); the `message.part.updated` completion path uses the fixed
title `"Assistant Ready"` and a body built from the raw cached model id and
mode (sse.rs lines 683-696). -/
theorem c5_per_path_notification_formats :
    (∀ (st : StreamState) (v props : Json) (i : String),
        ((normalize_event v).get "type").bind Json.asStr = some "message.updated" →
        (normalize_event v).get "properties" = some props →
        is_suppressed (normalize_event v) = false →
        resolve_field props "id" = some i →
        msg_upd_trigger props = true →
        st.last_completed_id ≠ some i →
        (handle_value st v).2 =
          [Out.msgComplete i,
           Out.notify
             (formatted_mode
                 ((extract_model_mode props).2.getD
                   ((cache_get st.message_info_cache i).getD
                     ("unknown model", "unknown mode")).2)
               ++ " agent is ready")
             (formatted_model
                 ((extract_model_mode props).1.getD
                   ((cache_get st.message_info_cache i).getD
                     ("unknown model", "unknown mode")).1)
               ++ " completed the task"),
           Out.sink (normalize_event v)])
    ∧ (∀ (st : StreamState) (w part : Json) (i : String),
        ((normalize_event w).get "type").bind Json.asStr = some "message.part.updated" →
        ((normalize_event w).get "properties").bind (fun p => p.get "part") = some part →
        step_finish_stop part = true →
        ((part.get "messageID").orElse (fun _ => part.get "message_id")).bind Json.asStr
          = some i →
        st.last_completed_id ≠ some i →
        (handle_value st w).2 =
          [Out.msgComplete i,
           Out.notify "Assistant Ready"
             ("Model "
              ++ ((cache_get st.message_info_cache i).getD ("unknown model", "unknown mode")).1
              ++ " in "
              ++ ((cache_get st.message_info_cache i).getD ("unknown model", "unknown mode")).2
              ++ " mode finished working."),
           Out.sink (normalize_event w)]) :=
  ⟨fun st v props i hty hprops hnsup hid htrig hguard =>
     handle_value_updated_notify st v props i hty hprops hnsup hid htrig hguard,
   fun st w part i hty hpart hstop hid hguard =>
     (handle_value_part_notify st w part i hty hpart hstop hid hguard).1⟩

theorem c5_witness :
    extract_model_mode (Json.obj [("id", Json.str "m4"), ("status", Json.str "completed"),
        ("info", Json.obj [("modelID", Json.str "claude-3-5-sonnet"),
          ("mode", Json.str "build")])])
      = (some "claude-3-5-sonnet", some "build")
    ∧ (handle_value init_state completed_info_frame).2
      = [Out.msgComplete "m4",
         Out.notify (formatted_mode "build" ++ " agent is ready")
           (formatted_model "claude-3-5-sonnet" ++ " completed the task"),
         Out.sink (normalize_event completed_info_frame)] :=
  ⟨rfl,
   c5_per_path_notification_formats.1 init_state completed_info_frame
     (Json.obj [("id", Json.str "m4"), ("status", Json.str "completed"),
       ("info", Json.obj [("modelID", Json.str "claude-3-5-sonnet"),
         ("mode", Json.str "build")])])
     "m4" rfl rfl rfl rfl rfl (by simp [init_state])⟩

/-- Counterexample to claim C5 as stated: a completion detected on the
`message.part.updated` path fires a notification whose title is the fixed
string `"Assistant Ready"` and whose body interpolates the raw cached model
id and mode — not the Title-Case / dash-split formatted forms the claim
requires for every notification. -/
theorem c5_counterexample :
    notify_outs (run_frames init_state [meta_placeholder_frame, stop_part_frame "m1"]).2
      = [Out.notify "Assistant Ready"
          "Model claude-3-5-sonnet in build mode finished working."]
    ∧ "Assistant Ready" ≠ formatted_mode "build" ++ " agent is ready"
    ∧ "Model claude-3-5-sonnet in build mode finished working."
        ≠ formatted_model "claude-3-5-sonnet" ++ " completed the task" :=
  ⟨rfl, by decide, by decide⟩

/-- Claim C7: the model id `claude-3-5-sonnet` formats to `Claude 3.5 Sonnet`
(digit-flanked dashes become dots, remaining dashes split Title-Cased words)
and the mode `BUILD` formats to `Build`. -/
theorem c7_format_examples :
    formatted_model "claude-3-5-sonnet" = "Claude 3.5 Sonnet"
    ∧ formatted_mode "BUILD" = "Build" :=
  ⟨rfl, rfl⟩

theorem handle_value_event_id_none (st : StreamState) (parsed : Json) :
    (handle_value st parsed).1.event_id_buf = none := by
  simp only [handle_value]
  cases hsup : is_suppressed (normalize_event parsed)
  · simp [take_event_id]
  · simp [take_event_id]

/-- Claim C8 as amended: after a frame-terminating blank line with pending
data, the data buffer is always cleared, and the pending event id is consumed
(moved into `last_event_id`, slot emptied) when the data parses successfully
— including for suppressed placeholders — but it is left in place when
parsing fails (the `Err` branch at sse.rs lines 716-725 never touches
`event_id_buf`). -/
theorem c8_frame_buffer_clearing (parse : List Nat → Option Json) (st : StreamState)
    (hdata : st.data_buf ≠ []) :
    (process_line parse st []).1.data_buf = []
    ∧ ((parse st.data_buf).isSome → (process_line parse st []).1.event_id_buf = none)
    ∧ (parse st.data_buf = none →
        (process_line parse st []).1.event_id_buf = st.event_id_buf) := by
  have hne : st.data_buf.isEmpty = false := by
    cases hd : st.data_buf with
    | nil => exact absurd hd hdata
    | cons b rest => rfl
  simp only [process_line, strip_crlf, List.reverse_nil, List.dropWhile_nil,
    List.head?_nil, List.isEmpty_nil, hne, if_true, if_false, Bool.false_eq_true,
    reduceCtorEq]
  cases hp : parse st.data_buf with
  | some v =>
      refine ⟨?_, ?_, ?_⟩
      · simp
      · intro _
        simpa using handle_value_event_id_none st v
      · intro hc
        exact Option.noConfusion hc
  | none =>
      refine ⟨by simp, ?_, ?_⟩
      · intro hc
        simp at hc
      · intro _
        simp

theorem c8_witness :
    (ascii_bytes "null" : List Nat) ≠ []
    ∧ (process_line json_parse
        { init_state with data_buf := ascii_bytes "null", event_id_buf := some [55] } []).1.data_buf
      = []
    ∧ ((json_parse (ascii_bytes "null")).isSome →
        (process_line json_parse
          { init_state with data_buf := ascii_bytes "null", event_id_buf := some [55] } []).1.event_id_buf
        = none) :=
  ⟨by decide,
   (c8_frame_buffer_clearing json_parse
     { init_state with data_buf := ascii_bytes "null", event_id_buf := some [55] }
     (by decide)).1,
   (c8_frame_buffer_clearing json_parse
     { init_state with data_buf := ascii_bytes "null", event_id_buf := some [55] }
     (by decide)).2.1⟩

/-- Counterexample to claim C8 as stated: after the terminated frame
`id:7` / `data: notjson` / blank line, whose data fails to parse, the data
buffer is cleared but the pending event-id buffer still holds `"7"` — the
event-id buffer is not cleared after a parse-error frame. -/
theorem c8_counterexample :
    (run_lines json_parse init_state
        [ascii_bytes "id:7", ascii_bytes "data: notjson", ascii_bytes ""]).1.event_id_buf
      = some (ascii_bytes "7")
    ∧ (run_lines json_parse init_state
        [ascii_bytes "id:7", ascii_bytes "data: notjson", ascii_bytes ""]).1.data_buf = []
    ∧ some (ascii_bytes "7") ≠ (none : Option (List Nat)) :=
  ⟨rfl, rfl, by decide⟩

theorem heartbeats_subset : ∀ (ts : List Nat) (lastHb t : Nat),
    t ∈ heartbeats lastHb ts → t ∈ ts := by
  intro ts
  induction ts with
  | nil =>
      intro lastHb t h
      simp [heartbeats] at h
  | cons t0 rest ih =>
      intro lastHb t h
      simp only [heartbeats] at h
      by_cases hc : 20 < t0 - lastHb
      · rw [if_pos hc] at h
        rcases List.mem_cons.mp h with h | h
        · simp [h]
        · exact List.mem_cons_of_mem t0 (ih t0 t h)
      · rw [if_neg hc] at h
        exact List.mem_cons_of_mem t0 (ih lastHb t h)

/-- Claim C9 as amended: the heartbeat check runs only while a line is being
processed (it sits inside the per-line loop, sse.rs lines 388-396) — every
emitted heartbeat time is the arrival time of some processed line, and a
processed line emits a heartbeat exactly when more than 20 seconds elapsed
since the previous one; while no data arrives, no heartbeat is emitted. -/
theorem c9_heartbeat_per_line (lastHb : Nat) (ts : List Nat) :
    (∀ t, t ∈ heartbeats lastHb ts → t ∈ ts)
    ∧ (∀ (t : Nat) (ts' : List Nat),
        heartbeats lastHb (t :: ts') =
          if 20 < t - lastHb then t :: heartbeats t ts' else heartbeats lastHb ts')
    ∧ heartbeats lastHb [] = [] :=
  ⟨fun t h => heartbeats_subset ts lastHb t h, fun _ _ => rfl, rfl⟩

theorem c9_witness :
    (100 ∈ heartbeats 0 [100]) ∧ 100 ∈ ([100] : List Nat) :=
  ⟨by decide, (c9_heartbeat_per_line 0 [100]).1 100 (by decide)⟩

/-- Counterexample to claim C9 as stated: with the previous heartbeat at time
0 and the only processed line arriving at time 100, every emitted heartbeat
is at time 100 — between times 21 and 99 more than 20 seconds had elapsed and
no data arrived, yet no heartbeat diagnostic was emitted, contradicting
"regardless of whether any data arrives". -/
theorem c9_counterexample :
    heartbeats 0 [100] = [100]
    ∧ (heartbeats 0 [100]).all (fun t => decide (99 < t)) = true :=
  ⟨rfl, rfl⟩
